import Mathlib

/-
  Verification of the response-instruction protocol and dispatcher of the
  gemini-code-plugin VS Code extension (src/extension.ts, second revision,
  the one exporting processInstruction).

  The embedding is a shallow translation of the source:
  - JS strings are modelled as Lean String, with character-level operations
    (String.prototype.indexOf, splicing by offsets) on the underlying
    List Char;
  - the host collaborators (vscode.workspace.fs, openTextDocument,
    showTextDocument, editor.edit, createTerminal, JSON.parse and the
    active-editor query) are a record of result functions, so one dispatch
    run is a pure function from the host record and the instruction to a
    trace of effects (host calls and user notifications) in order;
  - the async/await structure of the source is sequential, so the trace is
    the ordered list of calls the source makes.
-/

namespace GeminiPlugin

/-- Does the character list begin with the given pattern list. -/
def strStartsWith : List Char → List Char → Bool
  | _, [] => true
  | [], _ :: _ => false
  | a :: as, b :: bs => a == b && strStartsWith as bs

/-- JS String.prototype.indexOf on character lists: the index of the first
occurrence of pat in hay, or none when there is no occurrence (JS -1). -/
def jsIndexOf : List Char → List Char → Option Nat
  | [], pat => if strStartsWith [] pat then some 0 else none
  | a :: as, pat =>
    if strStartsWith (a :: as) pat then some 0
    else (jsIndexOf as pat).map (· + 1)

/-- Replace the character range [start, stop) of text with repl: the
document-level meaning of editBuilder.replace over the range from
positionAt(startIndex) to positionAt(startIndex + oldString.length). -/
def replaceRange (text : List Char) (start stop : Nat) (repl : List Char) : List Char :=
  text.take start ++ repl ++ text.drop stop

/-- One raw instruction record decoded from the model response. Each field of
the JS object is either absent (undefined) or a string, matching the wire
format of section 3 of the spec; absent is none. -/
structure Instruction where
  action : Option String := none
  filePath : Option String := none
  content : Option String := none
  oldPath : Option String := none
  newPath : Option String := none
  oldString : Option String := none
  newString : Option String := none
  command : Option String := none
deriving DecidableEq

/-- JS truthiness of a possibly-absent string field: undefined and the empty
string are falsy, every other string is truthy. -/
def strTruthy : Option String → Bool
  | none => false
  | some s => !(s == "")

/-- A user notification, one of the three severities of vscode.window. -/
inductive Notification where
  | info (msg : String)
  | warning (msg : String)
  | error (msg : String)
deriving DecidableEq

/-- One call into a host capability, with its arguments. -/
inductive HostCall where
  | fsDelete (path : String)
  | fsRename (oldPath newPath : String)
  | fsWrite (path : String) (content : String)
  | openDoc (path : String)
  | showDoc (path : String)
  | applyEdit (start stop : Nat) (replacement : String)
  | createTerminal (label : String)
  | showTerminal
  | sendTextToTerminal (command : String)
  | insertAtCursor (code : String)
deriving DecidableEq

/-- One observable step of a run: a host call, a notification, or the start
of one processInstruction dispatch (recorded so that dispatch counts and
order are visible in the trace). -/
inductive Effect where
  | host (c : HostCall)
  | notify (n : Notification)
  | dispatch (inst : Instruction)
deriving DecidableEq

/-- An error thrown by a host operation: a machine-readable code when the
error object carries one (e.code, e.g. EEXIST or ENOENT) and the
human-readable e.message. -/
structure HostError where
  code : Option String := none
  message : String := ""
deriving DecidableEq

/-- The top-level value JSON.parse can return for the claims at hand: an
array of records, or a single non-array value whose field reads are the
recorded options (reading a field of a non-object JS value yields
undefined, i.e. every field none). -/
inductive ParsedJson where
  | obj (inst : Instruction)
  | arr (insts : List Instruction)
deriving DecidableEq

/-- The host environment: outcome functions for every failable collaborator
call the dispatcher makes, JSON.parse as an opaque library primitive
(none = the parse threw), and whether an active text editor exists.
none as a result means the awaited call resolved; some e means it threw e. -/
structure Host where
  parseJson : List Char → Option ParsedJson
  deleteResult : String → Option HostError
  renameResult : String → String → Option HostError
  writeResult : String → String → Option HostError
  openResult : String → Except HostError String
  showDocResult : String → Option HostError
  editResult : Option HostError
  hasActiveEditor : Bool

/-- The createFile catch branch of processInstruction: the error message is
classified by e.code before display. -/
def createFileFailureMsg (fp : String) (e : HostError) : String :=
  if e.code = some "EEXIST" then
    "File creation failed: " ++ fp ++ " already exists."
  else if e.code = some "ENOENT" then
    "File creation failed: Directory for " ++ fp ++ " does not exist."
  else
    "Error creating file " ++ fp ++ ": " ++ e.message

/-- Shallow embedding of processInstruction (extension.ts, the exported
dispatcher). The switch on instruction.action becomes a chain of equality
tests; each case body records its host calls and notifications in order.
The createFile and modifyFile cases mirror the source exactly: their field
guards have no else branch, so a recognized action with missing fields
falls through to break with no notification and no host call. -/
def processInstruction (host : Host) (inst : Instruction) : List Effect :=
  if inst.action = some "deleteFile" then
    if strTruthy inst.filePath then
      let fp := inst.filePath.getD ""
      match host.deleteResult fp with
      | none =>
        [.host (.fsDelete fp),
         .notify (.info ("File " ++ fp ++ " deleted successfully."))]
      | some e =>
        [.host (.fsDelete fp),
         .notify (.error ("Error deleting file " ++ fp ++ ": " ++ e.message))]
    else
      [.notify (.warning "Delete file instruction missing filePath.")]
  else if inst.action = some "renameFile" then
    if strTruthy inst.oldPath && strTruthy inst.newPath then
      let op := inst.oldPath.getD ""
      let np := inst.newPath.getD ""
      match host.renameResult op np with
      | none =>
        [.host (.fsRename op np),
         .notify (.info ("File " ++ op ++ " renamed to " ++ np ++ " successfully."))]
      | some e =>
        [.host (.fsRename op np),
         .notify (.error ("Error renaming file from " ++ op ++ " to " ++ np ++ ": " ++ e.message))]
    else
      [.notify (.warning "Rename file instruction missing oldPath or newPath.")]
  else if inst.action = some "createFile" then
    if strTruthy inst.filePath && inst.content.isSome then
      let fp := inst.filePath.getD ""
      let c := inst.content.getD ""
      match host.writeResult fp c with
      | none =>
        [.host (.fsWrite fp c),
         .notify (.info ("File " ++ fp ++ " created successfully."))]
      | some e =>
        [.host (.fsWrite fp c),
         .notify (.error (createFileFailureMsg fp e))]
    else
      []
  else if inst.action = some "modifyFile" then
    if strTruthy inst.filePath && inst.oldString.isSome && inst.newString.isSome then
      let fp := inst.filePath.getD ""
      let oldS := inst.oldString.getD ""
      let newS := inst.newString.getD ""
      Effect.host (.openDoc fp) ::
      match host.openResult fp with
      | .error e =>
        [.notify (.error ("Error modifying file " ++ fp ++ ": " ++ e.message))]
      | .ok docText =>
        Effect.host (.showDoc fp) ::
        match host.showDocResult fp with
        | some e =>
          [.notify (.error ("Error modifying file " ++ fp ++ ": " ++ e.message))]
        | none =>
          match jsIndexOf docText.data oldS.data with
          | some i =>
            Effect.host (.applyEdit i (i + oldS.data.length) newS) ::
            match host.editResult with
            | some e =>
              [.notify (.error ("Error modifying file " ++ fp ++ ": " ++ e.message))]
            | none =>
              [.notify (.info ("File " ++ fp ++ " modified successfully."))]
          | none =>
            [.notify (.warning ("File modification failed: Could not find the specified oldString in " ++ fp ++ "."))]
    else
      []
  else if inst.action = some "runShellCommand" then
    if strTruthy inst.command then
      let cmd := inst.command.getD ""
      [.host (.createTerminal "Gemini Command"),
       .host .showTerminal,
       .host (.sendTextToTerminal cmd),
       .notify (.info ("Executing command: " ++ cmd))]
    else
      [.notify (.warning "Run shell command instruction missing command.")]
  else
    [.notify (.warning "AI provided an unrecognized or incomplete JSON instruction.")]

/-- The opening fence of the instruction block regex: three backticks, the
json language tag, and a newline. -/
def openFenceJson : List Char := "```json\n".data

/-- The closing fence the lazy interior stops at: a newline and three
backticks. -/
def closeFence : List Char := "\n```".data

/-- The capture group of the first match of the instruction block regex
(three backticks, json, newline, a lazy interior, newline, three
backticks): the interior of the earliest such block, shortest first. The
regex can match starting only at an occurrence of the opening fence that
has a closing fence after it; since every closing fence after a later
opening fence is also after the first one, the earliest viable start is
the first occurrence of the opening fence, and the lazy interior runs to
the first closing fence after it. -/
def extractJsonBlock (text : List Char) : Option (List Char) :=
  match jsIndexOf text openFenceJson with
  | none => none
  | some i =>
    let afterOpen := (text.drop i).drop openFenceJson.length
    match jsIndexOf afterOpen closeFence with
    | none => none
    | some j => some (afterOpen.take j)

/-- The capture group 1 of the code block regex. The source regex wraps the
optional language tag in a non-capturing group and has no capturing group
at all, so match[1] is undefined for every input text: the constant none
is its faithful value. -/
def codeBlockGroup1 (_text : String) : Option String := none

/-- The code-insertion tail of the response handler: it runs only when
codeMatch and codeMatch[1] are both truthy. Since group 1 never exists,
the branch bodies (insert the trimmed code and report info, or warn when
no editor is active) are unreachable. -/
def codeInsertionPath (host : Host) (text : String) : List Effect :=
  match codeBlockGroup1 text with
  | some code =>
    if code ≠ "" then
      if host.hasActiveEditor then
        [.host (.insertAtCursor code.trim),
         .notify (.info "Code inserted into active editor.")]
      else
        [.notify (.warning "No active text editor found to insert code.")]
    else []
  | none => []

/-- Shallow embedding of the response-processing part of the prompt handler
(after the webview echo): match the json block regex; when the match and
its capture are truthy, parse and dispatch (array: one awaited dispatch
per element in order; single value: warn then dispatch it once; parse
throw: one malformed-instruction error) and return; otherwise fall
through to the code-insertion path. -/
def handleResponse (host : Host) (text : String) : List Effect :=
  match extractJsonBlock text.data with
  | some interior =>
    if interior = [] then
      codeInsertionPath host text
    else
      match host.parseJson interior with
      | none =>
        [.notify (.error "AI provided malformed JSON instruction(s).")]
      | some (.obj inst) =>
        Effect.notify (.warning "AI provided a single JSON object instead of an array for operations. Attempting to process as a single operation.")
        :: Effect.dispatch inst :: processInstruction host inst
      | some (.arr insts) =>
        (insts.map (fun i => Effect.dispatch i :: processInstruction host i)).flatten
  | none => codeInsertionPath host text

/-- The document text after the modifyFile case ran on a document with the
given text: splice newString over the first occurrence of oldString when
one exists, otherwise leave the text unchanged (the not-found branch
applies no edit). -/
def modifyFileNewText (docText oldS newS : String) : String :=
  match jsIndexOf docText.data oldS.data with
  | some i => ⟨replaceRange docText.data i (i + oldS.data.length) newS.data⟩
  | none => docText

/-- strStartsWith holds exactly when the pattern is an initial segment. -/
theorem strStartsWith_iff (l p : List Char) :
    strStartsWith l p = true ↔ ∃ t, l = p ++ t := by
  induction p generalizing l with
  | nil =>
    simp [strStartsWith]
  | cons b bs ih =>
    cases l with
    | nil =>
      simp [strStartsWith]
    | cons a as =>
      simp only [strStartsWith, Bool.and_eq_true, beq_iff_eq, ih]
      constructor
      · rintro ⟨rfl, t, rfl⟩
        exact ⟨t, rfl⟩
      · rintro ⟨t, ht⟩
        cases ht
        exact ⟨rfl, t, rfl⟩

/-- A successful jsIndexOf yields the first occurrence: the haystack splits
as pre ++ pat ++ post with pre of length i, and no decomposition has a
shorter prefix. -/
theorem jsIndexOf_eq_some (hay pat : List Char) (i : Nat)
    (h : jsIndexOf hay pat = some i) :
    ∃ pre post, hay = pre ++ pat ++ post ∧ pre.length = i ∧
      ∀ pre' post', hay = pre' ++ pat ++ post' → i ≤ pre'.length := by
  induction hay generalizing i with
  | nil =>
    simp only [jsIndexOf] at h
    by_cases hs : strStartsWith [] pat = true
    · rw [if_pos hs] at h
      injection h with h0
      subst h0
      rcases (strStartsWith_iff [] pat).mp hs with ⟨t, ht⟩
      exact ⟨[], t, by simpa using ht, rfl, fun _ _ _ => Nat.zero_le _⟩
    · rw [if_neg hs] at h
      exact absurd h (by simp)
  | cons a as ih =>
    simp only [jsIndexOf] at h
    by_cases hs : strStartsWith (a :: as) pat = true
    · rw [if_pos hs] at h
      injection h with h0
      subst h0
      rcases (strStartsWith_iff (a :: as) pat).mp hs with ⟨t, ht⟩
      exact ⟨[], t, by simpa using ht, rfl, fun _ _ _ => Nat.zero_le _⟩
    · rw [if_neg hs] at h
      cases hjx : jsIndexOf as pat with
      | none =>
        rw [hjx] at h
        exact absurd h (by simp)
      | some j =>
        rw [hjx] at h
        simp only [Option.map] at h
        injection h with h0
        rcases ih j hjx with ⟨pre, post, hsplit, hlen, hmin⟩
        refine ⟨a :: pre, post, by simp [hsplit], by simp [hlen, h0], ?_⟩
        intro pre' post' hsplit'
        cases pre' with
        | nil =>
          exfalso
          apply hs
          exact (strStartsWith_iff _ _).mpr ⟨post', by simpa using hsplit'⟩
        | cons a' pre'' =>
          simp only [List.cons_append, List.cons.injEq] at hsplit'
          have := hmin pre'' post' hsplit'.2
          simp only [List.length_cons]
          omega

/-- A failed jsIndexOf means the pattern occurs nowhere in the haystack. -/
theorem jsIndexOf_eq_none (hay pat : List Char)
    (h : jsIndexOf hay pat = none) :
    ∀ pre post, hay ≠ pre ++ pat ++ post := by
  induction hay with
  | nil =>
    intro pre post hsplit
    simp only [jsIndexOf] at h
    by_cases hs : strStartsWith [] pat = true
    · rw [if_pos hs] at h
      exact absurd h (by simp)
    · rcases List.append_eq_nil.mp hsplit.symm with ⟨h1, hpost⟩
      rcases List.append_eq_nil.mp h1 with ⟨hpre, hpat⟩
      subst hpat
      exact hs rfl
  | cons a as ih =>
    intro pre post hsplit
    simp only [jsIndexOf] at h
    by_cases hs : strStartsWith (a :: as) pat = true
    · rw [if_pos hs] at h
      exact absurd h (by simp)
    · rw [if_neg hs] at h
      have has : jsIndexOf as pat = none := by
        cases hjx : jsIndexOf as pat with
        | none => rfl
        | some j =>
          rw [hjx] at h
          exact absurd h (by simp [Option.map])
      cases pre with
      | nil =>
        apply hs
        exact (strStartsWith_iff _ _).mpr ⟨post, by simpa using hsplit⟩
      | cons a' pre'' =>
        simp only [List.cons_append, List.cons.injEq] at hsplit
        exact ih has pre'' post hsplit.2

/-- Taking the length of the left part of an append returns it. -/
theorem take_append_len (l t : List Char) : (l ++ t).take l.length = l := by
  induction l with
  | nil => simp
  | cons a as ih => simp [ih]

/-- Dropping the length of the left part of an append returns the right. -/
theorem drop_append_len (l t : List Char) : (l ++ t).drop l.length = t := by
  induction l with
  | nil => simp
  | cons a as ih => simp [ih]

/-- Splicing repl over the span of pat in pre ++ pat ++ post yields
pre ++ repl ++ post. -/
theorem replaceRange_splice (pre pat post repl : List Char) :
    replaceRange (pre ++ pat ++ post) pre.length (pre.length + pat.length) repl =
      pre ++ repl ++ post := by
  unfold replaceRange
  have htake : (pre ++ pat ++ post).take pre.length = pre := by
    rw [List.append_assoc]
    exact take_append_len pre (pat ++ post)
  have hdrop : (pre ++ pat ++ post).drop (pre.length + pat.length) = post := by
    have : pre ++ pat ++ post = (pre ++ pat) ++ post := by simp
    rw [this, ← List.length_append]
    exact drop_append_len (pre ++ pat) post
  rw [htake, hdrop]

/-- A host on which every operation succeeds, JSON.parse always throws, and
an active editor exists; document text is the string used by the repo
test suite. -/
def hostOk : Host where
  parseJson := fun _ => none
  deleteResult := fun _ => none
  renameResult := fun _ _ => none
  writeResult := fun _ _ => none
  openResult := fun _ => .ok "file content"
  showDocResult := fun _ => none
  editResult := none
  hasActiveEditor := true

/-- Claim C1: the claim states that every recognized action with a missing
required field yields exactly one warning with the documented
field-naming message and zero host calls. The createFile and modifyFile
switch cases of processInstruction have no else branch, so on a missing
field they produce an empty trace: no warning at all (the repo test suite
expects the warnings, so this is a defect of the code). This theorem
evaluates the dispatcher at the two failing inputs. -/
theorem claim1_missing_field_silent_skip :
    processInstruction hostOk
      { action := some "createFile", filePath := some "/test/new-file.js" } = []
    ∧ processInstruction hostOk
      { action := some "modifyFile", filePath := some "/test/existing-file.js",
        oldString := some "old content" } = [] := by
  constructor <;> rfl

/-- Claim C10: for deleteFile, renameFile and runShellCommand, a required
path or command field that is present but equal to the empty string
behaves exactly as an absent field: the corresponding missing-field
warning is reported and no host call is made, because those fields are
tested by JS truthiness. -/
theorem claim10_empty_string_field_is_missing (host : Host) (inst : Instruction) :
    (inst.action = some "deleteFile" → inst.filePath = some "" →
      processInstruction host inst =
        [.notify (.warning "Delete file instruction missing filePath.")]
      ∧ processInstruction host inst =
        processInstruction host { inst with filePath := none })
    ∧ (inst.action = some "renameFile" → inst.oldPath = some "" →
      processInstruction host inst =
        [.notify (.warning "Rename file instruction missing oldPath or newPath.")]
      ∧ processInstruction host inst =
        processInstruction host { inst with oldPath := none })
    ∧ (inst.action = some "renameFile" → inst.newPath = some "" →
      processInstruction host inst =
        [.notify (.warning "Rename file instruction missing oldPath or newPath.")]
      ∧ processInstruction host inst =
        processInstruction host { inst with newPath := none })
    ∧ (inst.action = some "runShellCommand" → inst.command = some "" →
      processInstruction host inst =
        [.notify (.warning "Run shell command instruction missing command.")]
      ∧ processInstruction host inst =
        processInstruction host { inst with command := none }) := by
  refine ⟨?_, ?_, ?_, ?_⟩
  · intro ha hf
    constructor <;> simp [processInstruction, ha, hf, strTruthy]
  · intro ha hf
    constructor <;> simp [processInstruction, ha, hf, strTruthy]
  · intro ha hf
    constructor <;> simp [processInstruction, ha, hf, strTruthy]
  · intro ha hf
    constructor <;> simp [processInstruction, ha, hf, strTruthy]

/-- Witness for claim C10: a deleteFile instruction whose filePath is the
empty string yields the missing-filePath warning and the same trace as
the instruction with filePath absent. -/
theorem claim10_witness :
    ({ action := some "deleteFile", filePath := some "" } : Instruction).action
        = some "deleteFile"
    ∧ ({ action := some "deleteFile", filePath := some "" } : Instruction).filePath
        = some ""
    ∧ processInstruction hostOk { action := some "deleteFile", filePath := some "" } =
        [.notify (.warning "Delete file instruction missing filePath.")]
    ∧ processInstruction hostOk { action := some "deleteFile", filePath := some "" } =
        processInstruction hostOk { action := some "deleteFile" } :=
  ⟨rfl, rfl,
   ((claim10_empty_string_field_is_missing hostOk
      { action := some "deleteFile", filePath := some "" }).1 rfl rfl).1,
   ((claim10_empty_string_field_is_missing hostOk
      { action := some "deleteFile", filePath := some "" }).1 rfl rfl).2⟩

/-- Claim C8: a deleteFile instruction with a non-missing filePath makes
exactly one file-store delete call for that path; on success it reports
the documented info message, and on a thrown host error it reports
exactly one error notification interpolating the raw underlying
message. -/
theorem claim8_deleteFile_dispatch (host : Host) (inst : Instruction) (fp : String)
    (ha : inst.action = some "deleteFile") (hf : inst.filePath = some fp)
    (hne : fp ≠ "") :
    (host.deleteResult fp = none →
      processInstruction host inst =
        [.host (.fsDelete fp),
         .notify (.info ("File " ++ fp ++ " deleted successfully."))])
    ∧ ∀ e, host.deleteResult fp = some e →
      processInstruction host inst =
        [.host (.fsDelete fp),
         .notify (.error ("Error deleting file " ++ fp ++ ": " ++ e.message))] := by
  constructor
  · intro hr
    simp [processInstruction, ha, hf, strTruthy, hne, hr]
  · intro e hr
    simp [processInstruction, ha, hf, strTruthy, hne, hr]

/-- Witness for claim C8: the concrete scenario of the spec, deleting
/test/file-to-delete.js on a host whose delete resolves. -/
theorem claim8_witness :
    ("/test/file-to-delete.js" : String) ≠ ""
    ∧ hostOk.deleteResult "/test/file-to-delete.js" = none
    ∧ processInstruction hostOk
        { action := some "deleteFile", filePath := some "/test/file-to-delete.js" } =
        [.host (.fsDelete "/test/file-to-delete.js"),
         .notify (.info "File /test/file-to-delete.js deleted successfully.")] :=
  ⟨by decide, rfl,
   (claim8_deleteFile_dispatch hostOk
      { action := some "deleteFile", filePath := some "/test/file-to-delete.js" }
      "/test/file-to-delete.js" rfl rfl (by decide)).1 rfl⟩

/-- Claim C4: a structurally complete createFile instruction whose host
write throws produces exactly one error notification after exactly one
write call, and the message is classified by the error code: EEXIST
yields the already-exists message, ENOENT yields the directory-missing
message, anything else interpolates the raw underlying message. -/
theorem claim4_createFile_failure_taxonomy (host : Host) (inst : Instruction)
    (fp c : String) (e : HostError)
    (ha : inst.action = some "createFile") (hf : inst.filePath = some fp)
    (hne : fp ≠ "") (hc : inst.content = some c)
    (hw : host.writeResult fp c = some e) :
    processInstruction host inst =
      [.host (.fsWrite fp c), .notify (.error (createFileFailureMsg fp e))]
    ∧ (e.code = some "EEXIST" →
        createFileFailureMsg fp e = "File creation failed: " ++ fp ++ " already exists.")
    ∧ (e.code = some "ENOENT" →
        createFileFailureMsg fp e =
          "File creation failed: Directory for " ++ fp ++ " does not exist.")
    ∧ (e.code ≠ some "EEXIST" → e.code ≠ some "ENOENT" →
        createFileFailureMsg fp e =
          "Error creating file " ++ fp ++ ": " ++ e.message) := by
  refine ⟨?_, ?_, ?_, ?_⟩
  · simp [processInstruction, ha, hf, hc, strTruthy, hne, hw]
  · intro hcode
    rw [createFileFailureMsg, if_pos hcode]
  · intro hcode
    rw [createFileFailureMsg, if_neg (by rw [hcode]; decide), if_pos hcode]
  · intro h1 h2
    rw [createFileFailureMsg, if_neg h1, if_neg h2]

/-- A host whose file write throws an existence-conflict error. -/
def hostWriteEexist : Host :=
  { hostOk with
    writeResult := fun _ _ => some { code := some "EEXIST", message := "file exists" } }

/-- Witness for claim C4: creating /test/existing-file.js on a host whose
write throws EEXIST reports the already-exists error message. -/
theorem claim4_witness :
    ("/test/existing-file.js" : String) ≠ ""
    ∧ hostWriteEexist.writeResult "/test/existing-file.js" "some content" =
        some { code := some "EEXIST", message := "file exists" }
    ∧ processInstruction hostWriteEexist
        { action := some "createFile", filePath := some "/test/existing-file.js",
          content := some "some content" } =
        [.host (.fsWrite "/test/existing-file.js" "some content"),
         .notify (.error (createFileFailureMsg "/test/existing-file.js"
           { code := some "EEXIST", message := "file exists" }))]
    ∧ createFileFailureMsg "/test/existing-file.js"
        { code := some "EEXIST", message := "file exists" } =
        "File creation failed: /test/existing-file.js already exists." :=
  ⟨by decide, rfl,
   (claim4_createFile_failure_taxonomy hostWriteEexist
      { action := some "createFile", filePath := some "/test/existing-file.js",
        content := some "some content" }
      "/test/existing-file.js" "some content"
      { code := some "EEXIST", message := "file exists" }
      rfl rfl (by decide) rfl rfl).1,
   (claim4_createFile_failure_taxonomy hostWriteEexist
      { action := some "createFile", filePath := some "/test/existing-file.js",
        content := some "some content" }
      "/test/existing-file.js" "some content"
      { code := some "EEXIST", message := "file exists" }
      rfl rfl (by decide) rfl rfl).2.1 rfl⟩

/-- Counterexample to claim C5 as stated: the response text consisting of a
fenced json block with an empty interior has a fenced json block whose
interior is not parseable as JSON (JSON.parse of the empty string
throws), yet the handler reports no malformed-instruction error at all:
jsonMatch[1] is the empty capture, which is falsy, so the parse is never
attempted, control falls through to the code-insertion path, and the
trace is empty. -/
theorem claim5_counterexample :
    extractJsonBlock ("```json\n\n```" : String).data = some []
    ∧ hostOk.parseJson [] = none
    ∧ handleResponse hostOk "```json\n\n```" = [] := by
  refine ⟨by decide, rfl, ?_⟩
  simp only [handleResponse]
  rw [show extractJsonBlock ("```json\n\n```" : String).data = some []
      from by decide]
  rfl

/-- Claim C5 as amended: when the response text carries a fenced json block
with a non-empty interior that JSON.parse rejects, the handler reports
exactly one malformed-instruction error, dispatches no instruction, and
never reaches the code-insertion path. (With an empty interior the
capture is falsy, the parse never runs, and control falls through to the
code-insertion path with no error.) -/
theorem claim5_malformed_json_aborts (host : Host) (text : String)
    (interior : List Char)
    (hx : extractJsonBlock text.data = some interior) (hne : interior ≠ [])
    (hp : host.parseJson interior = none) :
    handleResponse host text =
      [.notify (.error "AI provided malformed JSON instruction(s).")] := by
  simp only [handleResponse, hx, hp, if_neg hne]

/-- Witness for claim C5: a response whose json block interior is not JSON
on a host whose parse throws yields exactly the malformed error. -/
theorem claim5_witness :
    extractJsonBlock ("before\n```json\nnot valid json\n```\nafter" : String).data =
      some ("not valid json" : String).data
    ∧ (("not valid json" : String).data ≠ [])
    ∧ hostOk.parseJson ("not valid json" : String).data = none
    ∧ handleResponse hostOk "before\n```json\nnot valid json\n```\nafter" =
        [.notify (.error "AI provided malformed JSON instruction(s).")] :=
  ⟨by decide, by decide, rfl,
   claim5_malformed_json_aborts hostOk "before\n```json\nnot valid json\n```\nafter"
     ("not valid json" : String).data (by decide) (by decide) rfl⟩

/-- Claim C6: when the json block interior parses to an array, the handler
dispatches once per element in array order, each dispatch contributing
its own effects, and every element of the array is dispatched (an
operational failure of an earlier element does not stop the batch, since
every dispatch ends in a notification rather than a thrown error). -/
theorem claim6_batch_dispatch_in_order (host : Host) (text : String)
    (interior : List Char) (insts : List Instruction)
    (hx : extractJsonBlock text.data = some interior) (hne : interior ≠ [])
    (hp : host.parseJson interior = some (.arr insts)) :
    handleResponse host text =
      (insts.map (fun i => Effect.dispatch i :: processInstruction host i)).flatten
    ∧ ∀ inst ∈ insts, Effect.dispatch inst ∈ handleResponse host text := by
  have h1 : handleResponse host text =
      (insts.map (fun i => Effect.dispatch i :: processInstruction host i)).flatten := by
    simp only [handleResponse, hx, hp, if_neg hne]
  refine ⟨h1, ?_⟩
  intro inst hmem
  rw [h1]
  exact List.mem_flatten.mpr
    ⟨Effect.dispatch inst :: processInstruction host inst,
     List.mem_map_of_mem _ hmem, List.mem_cons_self _ _⟩

/-- A host for the two-element batch scenario: JSON.parse yields two
deleteFile instructions and the delete of the first path throws while
the second resolves. -/
def hostBatch : Host :=
  { hostOk with
    parseJson := fun _ =>
      some (.arr [{ action := some "deleteFile", filePath := some "/test/a.js" },
                  { action := some "deleteFile", filePath := some "/test/b.js" }]),
    deleteResult := fun p =>
      if p = "/test/a.js" then some { code := none, message := "boom" } else none }

/-- Witness for claim C6: the concrete scenario D, a batch of two
instructions where the first fails operationally; both are dispatched in
order and each produces its own notification. -/
theorem claim6_witness :
    extractJsonBlock ("```json\n[two ops]\n```" : String).data =
      some ("[two ops]" : String).data
    ∧ (("[two ops]" : String).data ≠ [])
    ∧ hostBatch.parseJson ("[two ops]" : String).data =
        some (.arr [{ action := some "deleteFile", filePath := some "/test/a.js" },
                    { action := some "deleteFile", filePath := some "/test/b.js" }])
    ∧ handleResponse hostBatch "```json\n[two ops]\n```" =
        ([{ action := some "deleteFile", filePath := some "/test/a.js" },
          { action := some "deleteFile", filePath := some "/test/b.js" }].map
          (fun i => Effect.dispatch i :: processInstruction hostBatch i)).flatten
    ∧ handleResponse hostBatch "```json\n[two ops]\n```" =
        [.dispatch { action := some "deleteFile", filePath := some "/test/a.js" },
         .host (.fsDelete "/test/a.js"),
         .notify (.error "Error deleting file /test/a.js: boom"),
         .dispatch { action := some "deleteFile", filePath := some "/test/b.js" },
         .host (.fsDelete "/test/b.js"),
         .notify (.info "File /test/b.js deleted successfully.")] :=
  ⟨by decide, by decide, rfl,
   (claim6_batch_dispatch_in_order hostBatch "```json\n[two ops]\n```"
      ("[two ops]" : String).data _ (by decide) (by decide) rfl).1,
   by decide⟩

/-- Claim C9: when the json block interior parses to a single non-array
value, the handler first warns that the model returned an object instead
of an array and then dispatches that object exactly once. -/
theorem claim9_single_object_tolerated (host : Host) (text : String)
    (interior : List Char) (inst : Instruction)
    (hx : extractJsonBlock text.data = some interior) (hne : interior ≠ [])
    (hp : host.parseJson interior = some (.obj inst)) :
    handleResponse host text =
      Effect.notify (.warning "AI provided a single JSON object instead of an array for operations. Attempting to process as a single operation.")
      :: Effect.dispatch inst :: processInstruction host inst := by
  simp only [handleResponse, hx, hp, if_neg hne]

/-- A host whose JSON.parse yields one deleteFile object (not an array). -/
def hostSingleObj : Host :=
  { hostOk with
    parseJson := fun _ =>
      some (.obj { action := some "deleteFile", filePath := some "/test/file-to-delete.js" }) }

/-- Witness for claim C9: a single-object payload produces the tolerance
warning followed by exactly one dispatch of that object. -/
theorem claim9_witness :
    extractJsonBlock ("```json\nsingle object payload\n```" : String).data =
      some ("single object payload" : String).data
    ∧ (("single object payload" : String).data ≠ [])
    ∧ hostSingleObj.parseJson ("single object payload" : String).data =
        some (.obj { action := some "deleteFile", filePath := some "/test/file-to-delete.js" })
    ∧ handleResponse hostSingleObj "```json\nsingle object payload\n```" =
        Effect.notify (.warning "AI provided a single JSON object instead of an array for operations. Attempting to process as a single operation.")
        :: Effect.dispatch { action := some "deleteFile", filePath := some "/test/file-to-delete.js" }
        :: processInstruction hostSingleObj
             { action := some "deleteFile", filePath := some "/test/file-to-delete.js" } :=
  ⟨by decide, by decide, rfl,
   claim9_single_object_tolerated hostSingleObj "```json\nsingle object payload\n```"
     ("single object payload" : String).data _ (by decide) (by decide) rfl⟩

/-- Three backticks, the fence delimiter of the generic code block regex. -/
def threeTicks : List Char := "```".data

/-- Whether the generic code block regex (three backticks, an optional
non-captured language tag, a lazy interior, three backticks) matches the
text at all: a match exists exactly when some occurrence of the fence is
followed, disjointly, by another occurrence, and if any such pair exists
then the first fence occurrence is the start of one, so it suffices to
look for a second fence after the first. -/
def codeBlockMatches (text : String) : Bool :=
  match jsIndexOf text.data threeTicks with
  | none => false
  | some i =>
    match jsIndexOf ((text.data.drop i).drop threeTicks.length) threeTicks with
    | none => false
    | some _ => true

/-- Claim C2: the claim states that with no instruction block, a generic
fenced code block and an active editor, the handler inserts the trimmed
block interior at the cursor and reports the insertion info message. The
code block regex of the source has no capturing group, so match[1] is
undefined for every text and the insertion branch can never run: on a
response that matches the code block regex, with an active editor and no
json block, the handler performs no insertion and emits no notification
at all. This theorem evaluates the handler at such an input. -/
theorem claim2_code_insertion_unreachable :
    codeBlockMatches "Here you go:\n```javascript\nconsole.log(1);\n```\n" = true
    ∧ extractJsonBlock ("Here you go:\n```javascript\nconsole.log(1);\n```\n" : String).data
        = none
    ∧ hostOk.hasActiveEditor = true
    ∧ handleResponse hostOk "Here you go:\n```javascript\nconsole.log(1);\n```\n" = [] := by
  refine ⟨by decide, by decide, rfl, ?_⟩
  simp only [handleResponse]
  rw [show extractJsonBlock
        ("Here you go:\n```javascript\nconsole.log(1);\n```\n" : String).data = none
      from by decide]
  rfl

/-- Claim C3: a modifyFile instruction with all three fields, on a document
whose text contains oldString, opens and shows the document, applies one
edit replacing exactly the first literal occurrence of oldString (no
earlier decomposition exists) with newString while leaving the text
before and after that span unchanged, and reports the info message
naming the file. -/
theorem claim3_modifyFile_replaces_first_occurrence (host : Host)
    (inst : Instruction) (fp oldS newS docText : String) (i : Nat)
    (ha : inst.action = some "modifyFile") (hf : inst.filePath = some fp)
    (hne : fp ≠ "") (ho : inst.oldString = some oldS)
    (hn : inst.newString = some newS)
    (hopen : host.openResult fp = .ok docText)
    (hshow : host.showDocResult fp = none)
    (hedit : host.editResult = none)
    (hidx : jsIndexOf docText.data oldS.data = some i) :
    ∃ pre post,
      docText.data = pre ++ oldS.data ++ post
      ∧ pre.length = i
      ∧ (∀ pre' post', docText.data = pre' ++ oldS.data ++ post' → i ≤ pre'.length)
      ∧ (modifyFileNewText docText oldS newS).data = pre ++ newS.data ++ post
      ∧ processInstruction host inst =
          [.host (.openDoc fp), .host (.showDoc fp),
           .host (.applyEdit i (i + oldS.data.length) newS),
           .notify (.info ("File " ++ fp ++ " modified successfully."))] := by
  rcases jsIndexOf_eq_some _ _ _ hidx with ⟨pre, post, hsplit, hlen, hmin⟩
  refine ⟨pre, post, hsplit, hlen, hmin, ?_, ?_⟩
  · simp only [modifyFileNewText, hidx]
    show replaceRange docText.data i (i + oldS.data.length) newS.data =
      pre ++ newS.data ++ post
    rw [← hlen, hsplit]
    exact replaceRange_splice pre oldS.data post newS.data
  · simp [processInstruction, ha, hf, ho, hn, strTruthy, hne, hopen, hshow,
      hedit, hidx]

/-- Witness for claim C3: replacing the first occurrence of content in the
document text file content with stuff. -/
theorem claim3_witness :
    ("/test/existing-file.js" : String) ≠ ""
    ∧ hostOk.openResult "/test/existing-file.js" = .ok "file content"
    ∧ hostOk.showDocResult "/test/existing-file.js" = none
    ∧ hostOk.editResult = none
    ∧ jsIndexOf ("file content" : String).data ("content" : String).data = some 5
    ∧ (∃ pre post,
        ("file content" : String).data = pre ++ ("content" : String).data ++ post
        ∧ pre.length = 5
        ∧ (∀ pre' post',
            ("file content" : String).data = pre' ++ ("content" : String).data ++ post' →
            5 ≤ pre'.length)
        ∧ (modifyFileNewText "file content" "content" "stuff").data =
            pre ++ ("stuff" : String).data ++ post
        ∧ processInstruction hostOk
            { action := some "modifyFile", filePath := some "/test/existing-file.js",
              oldString := some "content", newString := some "stuff" } =
            [.host (.openDoc "/test/existing-file.js"),
             .host (.showDoc "/test/existing-file.js"),
             .host (.applyEdit 5 (5 + ("content" : String).data.length) "stuff"),
             .notify (.info "File /test/existing-file.js modified successfully.")]) :=
  ⟨by decide, rfl, rfl, rfl, by decide,
   claim3_modifyFile_replaces_first_occurrence hostOk
     { action := some "modifyFile", filePath := some "/test/existing-file.js",
       oldString := some "content", newString := some "stuff" }
     "/test/existing-file.js" "content" "stuff" "file content" 5
     rfl rfl (by decide) rfl rfl rfl rfl rfl (by decide)⟩

/-- Claim C7: a modifyFile instruction with all three fields, on a document
whose text does not contain oldString, performs no edit (the trace holds
no edit call and the document function leaves the text unchanged) and
reports exactly one warning naming the file; in particular this covers a
second application of an instruction whose first application removed the
last occurrence of oldString. -/
theorem claim7_modifyFile_not_found (host : Host) (inst : Instruction)
    (fp oldS newS docText : String)
    (ha : inst.action = some "modifyFile") (hf : inst.filePath = some fp)
    (hne : fp ≠ "") (ho : inst.oldString = some oldS)
    (hn : inst.newString = some newS)
    (hopen : host.openResult fp = .ok docText)
    (hshow : host.showDocResult fp = none)
    (hidx : jsIndexOf docText.data oldS.data = none) :
    processInstruction host inst =
      [.host (.openDoc fp), .host (.showDoc fp),
       .notify (.warning ("File modification failed: Could not find the specified oldString in " ++ fp ++ "."))]
    ∧ modifyFileNewText docText oldS newS = docText
    ∧ ∀ pre post, docText.data ≠ pre ++ oldS.data ++ post := by
  refine ⟨?_, ?_, jsIndexOf_eq_none _ _ hidx⟩
  · simp [processInstruction, ha, hf, ho, hn, strTruthy, hne, hopen, hshow, hidx]
  · simp only [modifyFileNewText, hidx]

/-- A host whose document store returns the text produced by a successful
first application of the modifyFile instruction of claim C3's witness:
the second-application scenario. -/
def hostAfterModify : Host :=
  { hostOk with
    openResult := fun _ => .ok (modifyFileNewText "file content" "content" "stuff") }

/-- Witness for claim C7: applying the same modifyFile instruction to the
text produced by a successful first application, where oldString no
longer occurs, yields the not-found warning and leaves the text
unchanged. -/
theorem claim7_witness :
    modifyFileNewText "file content" "content" "stuff" = "file stuff"
    ∧ hostAfterModify.openResult "/test/existing-file.js" = .ok "file stuff"
    ∧ jsIndexOf ("file stuff" : String).data ("content" : String).data = none
    ∧ (processInstruction hostAfterModify
        { action := some "modifyFile", filePath := some "/test/existing-file.js",
          oldString := some "content", newString := some "stuff" } =
        [.host (.openDoc "/test/existing-file.js"),
         .host (.showDoc "/test/existing-file.js"),
         .notify (.warning "File modification failed: Could not find the specified oldString in /test/existing-file.js.")]
      ∧ modifyFileNewText "file stuff" "content" "stuff" = "file stuff"
      ∧ ∀ pre post,
          ("file stuff" : String).data ≠ pre ++ ("content" : String).data ++ post) :=
  ⟨by decide, rfl,
   by decide,
   claim7_modifyFile_not_found hostAfterModify
     { action := some "modifyFile", filePath := some "/test/existing-file.js",
       oldString := some "content", newString := some "stuff" }
     "/test/existing-file.js" "content" "stuff" "file stuff"
     rfl rfl (by decide) rfl rfl rfl rfl (by decide)⟩

end GeminiPlugin
